import Mathlib

/-!
Shallow embedding of `recordtocsv.go` (package `recordtocsv`), a service that
appends payloads as rows of time-partitioned CSV files.

Pure data (calendar dates, JSON-like payload values, CSV text) is modelled
directly.  The filesystem is an association of paths to file contents plus a
set of directories; the fallible OS calls (`time.LoadLocation`, `os.MkdirAll`,
`os.OpenFile`, the writes issued by `bufio` when the CSV writer is flushed)
are driven by a small environment of success flags.  Error strings keep the
`fmt.Errorf` wrapping text, with the wrapped OS/json error detail elided.
-/

namespace Recordtocsv

/-- Wall-clock date in the reference time zone, as produced by
`time.Now().In(loc)` in `Record` (only the calendar fields consumed by the
`Format` layouts `2006_01_02`, `2006_01`, `2006`). -/
structure GoDate where
  year : Nat
  month : Nat
  day : Nat
deriving DecidableEq

/-- Decimal rendering of `n`, left-padded with zeros to width `w`: the
semantics of the Go `time.Format` layout fields `2006`, `01` and `02`. -/
def padNat (w n : Nat) : String :=
  let s := toString n
  if s.length < w then String.mk (List.replicate (w - s.length) '0') ++ s else s

/-- Configuration record, `RecordToCSVService` of `recordtocsv.go` lines
14-27.  Its only fields are the directory, the base filename, the column
list and the record type; there is no time-zone field. -/
structure RecordToCSVService where
  Dir : String
  Filename : String
  Column : List String
  RecordType : String
deriving DecidableEq

/-- Constructor `NewRecordToCSV` (lines 30-37): stores the four arguments,
performs no I/O and no validation. -/
def NewRecordToCSV (dir filename : String) (column : List String)
    (recordType : String) : RecordToCSVService :=
  { Dir := dir, Filename := filename, Column := column, RecordType := recordType }

/-- Time-zone name `Record` hands to `time.LoadLocation` (line 41).  The
source passes the literal `"Asia/Jakarta"` whatever the service instance is;
the unused parameter makes that instance-independence statable. -/
def recordZone (_r : RecordToCSVService) : String := "Asia/Jakarta"

/-- Period suffix computed by the `switch r.RecordType` of `Record`
(lines 50-59): `Format "2006_01_02"` for daily, `"2006_01"` for monthly,
`"2006"` for yearly, and no suffix for any other record type. -/
def periodSuffix (recordType : String) (d : GoDate) : Option String :=
  if recordType = "daily" then
    some (padNat 4 d.year ++ "_" ++ padNat 2 d.month ++ "_" ++ padNat 2 d.day)
  else if recordType = "monthly" then
    some (padNat 4 d.year ++ "_" ++ padNat 2 d.month)
  else if recordType = "yearly" then
    some (padNat 4 d.year)
  else none

/-- Error text of line 58 (`%q` shown as plain double quotes). -/
def unsupportedRecordTypeMsg (recordType : String) : String :=
  "unsupported record type: \"" ++ recordType ++
    "\". Must be 'daily', 'monthly', or 'yearly'"

/-- Path joining of `filepath.Join(r.Dir, ...)` (line 62) on slash-separated
paths.  (Go additionally runs `filepath.Clean` on the result; the claims use
the path only as an opaque key, and the project's example paths are already
clean.) -/
def filepathJoin (dir name : String) : String :=
  if dir = "" then name else dir ++ "/" ++ name

/-- Target file path built at line 62:
`filepath.Join(r.Dir, fmt.Sprintf("%s_%s.csv", r.Filename, suffix))`. -/
def recordPath (r : RecordToCSVService) (sfx : String) : String :=
  filepathJoin r.Dir (r.Filename ++ "_" ++ sfx ++ ".csv")

/-- JSON values, the image of `json.Marshal` on the payload.  Go decodes
JSON numbers into `float64`; the model carries integral numbers only (an
`Int`), which `fmt`'s `%v` prints as the plain decimal digits, exactly as Go
prints an integral `float64` below 2^53 (and below 1e21, where Go's shortest
`float64` formatting stays in positional notation). -/
inductive Json where
  | null
  | bool (b : Bool)
  | num (n : Int)
  | str (s : String)
  | arr (elems : List Json)
  | obj (fields : List (String × Json))

/-- Payload handed to `Record`: either a Go value that `json.Marshal`
serializes to the given JSON value, or one (a channel, a function, ...) on
which `json.Marshal` itself errors. -/
inductive Payload where
  | json (j : Json)
  | unserializable

/-- Insertion of a string into a sorted list, ordered lexicographically. -/
def insertStr (s : String) : List String → List String
  | [] => [s]
  | t :: rest => if s ≤ t then s :: t :: rest else t :: insertStr s rest

/-- Lexicographic insertion sort, modelling the sorted key order in which
`fmt` prints Go maps. -/
def sortStr : List String → List String
  | [] => []
  | s :: rest => insertStr s (sortStr rest)

mutual

/-- Rendering of a decoded JSON value by `fmt.Sprintf("%v", val)` (line 116):
booleans as `true`/`false`, numbers as their decimal digits, strings
verbatim, a nil interface as `<nil>`, slices as space-separated elements in
brackets, and maps as `map[key:value ...]` with entries in sorted order
(`fmt` sorts map keys; here the rendered `key:value` strings are sorted,
which agrees with key order for the key shapes that arise). -/
def renderValue : Json → String
  | .null => "<nil>"
  | .bool b => if b then "true" else "false"
  | .num n => toString n
  | .str s => s
  | .arr elems => "[" ++ String.intercalate " " (renderElems elems) ++ "]"
  | .obj fields => "map[" ++ String.intercalate " " (sortStr (renderPairs fields)) ++ "]"

/-- Renders each element of a decoded JSON array. -/
def renderElems : List Json → List String
  | [] => []
  | j :: rest => renderValue j :: renderElems rest

/-- Renders each entry of a decoded JSON object as `key:value`. -/
def renderPairs : List (String × Json) → List String
  | [] => []
  | (k, v) :: rest => (k ++ ":" ++ renderValue v) :: renderPairs rest

end

/-- First-match lookup in a decoded object, modelling Go map indexing
`dataMap[col]` (keys produced by `json.Unmarshal` of marshalled Go data are
unique, so first-match agrees with the Go map). -/
def jsonLookup : List (String × Json) → String → Option Json
  | [], _ => none
  | (k, v) :: rest, key => if k = key then some v else jsonLookup rest key

/-- The `json.Marshal` / `json.Unmarshal(jsonBytes, &dataMap)` round trip of
lines 105-111.  Marshalling fails on unserializable Go values; unmarshalling
into `map[string]interface{}` succeeds on a JSON object, leaves the map
empty on JSON `null`, and errors on any other JSON value. -/
def unmarshalToMap : Payload → Except String (List (String × Json))
  | .unserializable => .error "failed to marshal payload to JSON"
  | .json (.obj kvs) => .ok kvs
  | .json .null => .ok []
  | .json _ => .error "failed to unmarshal JSON to map"

/-- Row projection of lines 113-120: one field per configured column, in
order; a key that is present with a non-nil value renders via `%v`, a
missing or nil value renders as the empty string. -/
def projectRecord (column : List String) (m : List (String × Json)) : List String :=
  column.map fun col =>
    match jsonLookup m col with
    | some Json.null => ""
    | some v => renderValue v
    | none => ""

/-- Go's `unicode.IsSpace` (the White_Space property), used by
`encoding/csv` on a field's first rune. -/
def goIsSpace (c : Char) : Bool :=
  c = ' ' || c = '\t' || c = '\n' || c = '\x0B' || c = '\x0C' || c = '\r' ||
  c = '\u0085' || c = '\u00A0' || c = '\u1680' ||
  ('\u2000' ≤ c && c ≤ '\u200A') ||
  c = '\u2028' || c = '\u2029' || c = '\u202F' || c = '\u205F' || c = '\u3000'

/-- `encoding/csv` `Writer.fieldNeedsQuotes` with the default comma
delimiter: quote the special sequence `\.`, any field containing the
delimiter, a double quote, CR or LF, and any field starting with a space
rune; the empty field is left unquoted. -/
def goNeedsQuotes : List Char → Bool
  | [] => false
  | c :: rest =>
    if c :: rest = ['\\', '.'] then true
    else if (c :: rest).any (fun x => x = ',' || x = '"' || x = '\r' || x = '\n') then true
    else goIsSpace c

/-- Doubling of embedded quote characters inside a quoted CSV field
(`encoding/csv` writes all other bytes of the field verbatim when
`UseCRLF` is false). -/
def escQ : List Char → List Char
  | [] => []
  | c :: rest => if c = '"' then '"' :: '"' :: escQ rest else c :: escQ rest

/-- A single encoded CSV field: quoted with doubled quote characters when
`fieldNeedsQuotes` says so, verbatim otherwise. -/
def encFieldChars (f : List Char) : List Char :=
  if goNeedsQuotes f then '"' :: (escQ f ++ ['"']) else f

/-- String form of `encFieldChars`. -/
def encodeField (f : String) : String :=
  String.mk (encFieldChars f.toList)

/-- Comma-joining of the encoded fields of one record. -/
def joinComma : List (List Char) → List Char
  | [] => []
  | [f] => f
  | f :: g :: rest => f ++ ',' :: joinComma (g :: rest)

/-- Characters of one line produced by `csv.Writer.Write`: the encoded
fields joined by the comma delimiter, terminated by `\n` (`UseCRLF` is
false). -/
def rowChars (fields : List String) : List Char :=
  joinComma (fields.map fun s => encFieldChars s.toList) ++ ['\n']

/-- The line `csv.Writer.Write(fields)` appends to its buffer. -/
def writeRow (fields : List String) : String :=
  String.mk (rowChars fields)

/-- A field value containing the comma delimiter, a double quote, or a
newline — the cases the round-trip claim quantifies over. -/
def hasSpecialChar (f : String) : Bool :=
  f.toList.any fun c => c = ',' || c = '"' || c = '\n'

/-- Modelled from the spec: state of "a standard CSV reader" (the repository
contains no reader), scanning one record: at the start of a field, inside an
unquoted field, inside a quoted field, or just past a quote inside a quoted
field. -/
inductive CsvMode where
  | fstart
  | unq
  | quo
  | qend

/-- Modelled from the spec: the record scanner of "a standard CSV reader"
(RFC 4180 with the usual extensions: LF or CRLF or end of input terminates a
record, a quoted field may span lines with its bytes kept verbatim, `""`
inside quotes is an escaped quote; a bare quote in an unquoted field or text
after a closing quote is rejected).  `acc` holds the current field reversed,
`fields` the completed fields reversed. -/
def csvRun : List Char → CsvMode → List Char → List String → Option (List String)
  | [], m, acc, fields =>
    match m with
    | .quo => none
    | _ => some ((String.mk acc.reverse :: fields).reverse)
  | c :: rest, .fstart, _acc, fields =>
    if c = '"' then csvRun rest .quo [] fields
    else if c = ',' then csvRun rest .fstart [] ("" :: fields)
    else if c = '\n' then some (("" :: fields).reverse)
    else if c = '\r' ∧ rest.head? = some '\n' then some (("" :: fields).reverse)
    else csvRun rest .unq [c] fields
  | c :: rest, .unq, acc, fields =>
    if c = ',' then csvRun rest .fstart [] (String.mk acc.reverse :: fields)
    else if c = '\n' then some ((String.mk acc.reverse :: fields).reverse)
    else if c = '"' then none
    else if c = '\r' ∧ rest.head? = some '\n' then
      some ((String.mk acc.reverse :: fields).reverse)
    else csvRun rest .unq (c :: acc) fields
  | c :: rest, .quo, acc, fields =>
    if c = '"' then csvRun rest .qend acc fields
    else csvRun rest .quo (c :: acc) fields
  | c :: rest, .qend, acc, fields =>
    if c = '"' then csvRun rest .quo ('"' :: acc) fields
    else if c = ',' then csvRun rest .fstart [] (String.mk acc.reverse :: fields)
    else if c = '\n' then some ((String.mk acc.reverse :: fields).reverse)
    else if c = '\r' ∧ rest.head? = some '\n' then
      some ((String.mk acc.reverse :: fields).reverse)
    else none

/-- Modelled from the spec: parsing one record of CSV text with "a standard
CSV reader"; empty input holds no record. -/
def parseRecord (s : String) : Option (List String) :=
  if s.toList = [] then none else csvRun s.toList .fstart [] []

/-- Local filesystem state: file contents keyed by path, plus the set of
existing directories. -/
structure FS where
  files : List (String × String)
  dirs : List String
deriving DecidableEq

/-- First-match association lookup on path keys. -/
def assocLookup : List (String × String) → String → Option String
  | [], _ => none
  | (k, v) :: rest, p => if k = p then some v else assocLookup rest p

/-- Content of the file at path `p`, when it exists. -/
def lookupFile (fs : FS) (p : String) : Option String :=
  assocLookup fs.files p

/-- Sets the content of the file at path `p` (shadowing update). -/
def setFile (fs : FS) (p content : String) : FS :=
  { fs with files := (p, content) :: fs.files }

/-- Effect of `os.OpenFile(p, O_APPEND|O_CREATE|O_WRONLY, 0644)` on the
tree: creates an empty file at `p` when none exists. -/
def ensureFile (fs : FS) (p : String) : FS :=
  if (lookupFile fs p).isSome then fs else setFile fs p ""

/-- Appends `buf` to the file at `p` (the file exists by the time this is
reached, `os.OpenFile` having created it). -/
def appendFile (fs : FS) (p buf : String) : FS :=
  setFile fs p ((lookupFile fs p).getD "" ++ buf)

/-- Effect of `os.MkdirAll(dir, 0755)`: records the directory. -/
def mkdirAll (fs : FS) (dir : String) : FS :=
  { fs with dirs := if fs.dirs.contains dir then fs.dirs else dir :: fs.dirs }

/-- Success flags of the fallible environment calls: `time.LoadLocation`,
`os.MkdirAll`, `os.OpenFile`, and the underlying OS writes that `bufio`
issues when the CSV writer is flushed. -/
structure GoEnv where
  tzOk : Bool
  mkdirOk : Bool
  openOk : Bool
  writeOk : Bool
deriving DecidableEq

/-- The deferred `csvWriter.Flush()` (line 86): hands the buffered bytes to
the OS.  When the underlying write fails, nothing reaches the file — and the
error is discarded, the flush running inside a `defer` with no error
check. -/
def flushBuf (env : GoEnv) (fs : FS) (p buf : String) : FS :=
  if env.writeOk then appendFile fs p buf else fs

/-- `Append` (lines 77-132): opens/creates the file, writes the header row
into the CSV writer's buffer when the file size at open time is zero,
decodes the payload into a string-keyed map, writes the projected row into
the buffer, and on return flushes the buffer and closes the file (both
deferred).  `csvWriter.Write` and `csvWriter.Error()` only observe the
in-memory buffer (the model keeps the whole record buffered, as `bufio`
does for records below its buffer capacity), so the underlying write only
happens — and can only fail, silently — at the deferred flush. -/
def Append (fn : String) (column : List String) (data : Payload)
    (env : GoEnv) (fs : FS) : Except String Unit × FS :=
  if env.openOk then
    let old := (lookupFile fs fn).getD ""
    let fs1 := ensureFile fs fn
    let headerBuf := if old = "" then writeRow column else ""
    match unmarshalToMap data with
    | .error e => (.error e, flushBuf env fs1 fn headerBuf)
    | .ok m =>
      (.ok (), flushBuf env fs1 fn (headerBuf ++ writeRow (projectRecord column m)))
  else (.error ("failed to open/create CSV file \"" ++ fn ++ "\""), fs)

/-- `Record` (lines 40-73): loads the Asia/Jakarta location, computes the
period suffix from the record type (failing on any unsupported type before
touching the filesystem), builds the target path, ensures the directory
exists, and calls `Append`, wrapping any error it returns. -/
def Record (r : RecordToCSVService) (now : GoDate) (payload : Payload)
    (env : GoEnv) (fs : FS) : Except String Unit × FS :=
  if env.tzOk then
    match periodSuffix r.RecordType now with
    | some sfx =>
      if env.mkdirOk then
        match Append (recordPath r sfx) r.Column payload env (mkdirAll fs r.Dir) with
        | (.ok _, fs2) => (.ok (), fs2)
        | (.error e, fs2) =>
          (.error ("failed to append record to \"" ++ recordPath r sfx ++ "\": " ++ e), fs2)
      else (.error ("failed to create directory \"" ++ r.Dir ++ "\""), fs)
    | none => (.error (unsupportedRecordTypeMsg r.RecordType), fs)
  else (.error ("failed to load time zone '" ++ recordZone r ++ "'"), fs)

/-! ### Basic lemmas about strings and the filesystem model -/

theorem string_mk_toList (s : String) : String.mk s.toList = s := rfl

theorem string_mk_nil : String.mk [] = "" := rfl

theorem str_append_assoc (a b c : String) : a ++ b ++ c = a ++ (b ++ c) :=
  String.append_assoc a b c

theorem lookup_setFile_self (fs : FS) (p c : String) :
    lookupFile (setFile fs p c) p = some c := by
  simp [lookupFile, setFile, assocLookup]

theorem lookup_setFile_other (fs : FS) (p c q : String) (h : q ≠ p) :
    lookupFile (setFile fs p c) q = lookupFile fs q := by
  simp [lookupFile, setFile, assocLookup, Ne.symm h]

theorem lookup_ensureFile_self (fs : FS) (p : String) :
    lookupFile (ensureFile fs p) p = some ((lookupFile fs p).getD "") := by
  unfold ensureFile
  cases h : lookupFile fs p with
  | none => simp [h, lookup_setFile_self]
  | some c => simp [h]

theorem lookup_ensureFile_other (fs : FS) (p q : String) (h : q ≠ p) :
    lookupFile (ensureFile fs p) q = lookupFile fs q := by
  unfold ensureFile
  by_cases hs : (lookupFile fs p).isSome <;>
    simp [hs, lookup_setFile_other _ _ _ _ h]

theorem lookup_appendFile_self (fs : FS) (p buf : String) :
    lookupFile (appendFile fs p buf) p = some ((lookupFile fs p).getD "" ++ buf) := by
  simp [appendFile, lookup_setFile_self]

theorem lookup_appendFile_other (fs : FS) (p buf q : String) (h : q ≠ p) :
    lookupFile (appendFile fs p buf) q = lookupFile fs q := by
  simp [appendFile, lookup_setFile_other _ _ _ _ h]

theorem lookup_mkdirAll (fs : FS) (d p : String) :
    lookupFile (mkdirAll fs d) p = lookupFile fs p := rfl

/-! ### Evaluation lemmas for `Append` and `Record` -/

theorem Append_ok_eval (fn : String) (column : List String) (data : Payload)
    (env : GoEnv) (fs : FS) (m : List (String × Json))
    (hop : env.openOk = true) (hm : unmarshalToMap data = .ok m) :
    Append fn column data env fs =
      (.ok (), flushBuf env (ensureFile fs fn) fn
        ((if (lookupFile fs fn).getD "" = "" then writeRow column else "")
          ++ writeRow (projectRecord column m))) := by
  simp [Append, hop, hm]

theorem Append_err_eval (fn : String) (column : List String) (data : Payload)
    (env : GoEnv) (fs : FS) (e : String)
    (hop : env.openOk = true) (hm : unmarshalToMap data = .error e) :
    Append fn column data env fs =
      (.error e, flushBuf env (ensureFile fs fn) fn
        (if (lookupFile fs fn).getD "" = "" then writeRow column else "")) := by
  simp [Append, hop, hm]

theorem Record_eval (r : RecordToCSVService) (now : GoDate) (payload : Payload)
    (env : GoEnv) (fs : FS) (sfx : String)
    (htz : env.tzOk = true) (hmk : env.mkdirOk = true)
    (hs : periodSuffix r.RecordType now = some sfx) :
    Record r now payload env fs =
      match Append (recordPath r sfx) r.Column payload env (mkdirAll fs r.Dir) with
      | (.ok _, fs2) => (.ok (), fs2)
      | (.error e, fs2) =>
        (.error ("failed to append record to \"" ++ recordPath r sfx ++ "\": " ++ e), fs2) := by
  simp [Record, htz, hmk, hs]

/-- Content of the target file after a fully successful `Record` call: the
previous content, then the header exactly when the file was previously
empty or absent, then the projected data row. -/
theorem record_ok_content (r : RecordToCSVService) (now : GoDate)
    (payload : Payload) (env : GoEnv) (fs : FS) (m : List (String × Json))
    (sfx : String)
    (htz : env.tzOk = true) (hmk : env.mkdirOk = true)
    (hop : env.openOk = true) (hwr : env.writeOk = true)
    (hm : unmarshalToMap payload = .ok m)
    (hs : periodSuffix r.RecordType now = some sfx) :
    (Record r now payload env fs).1 = .ok () ∧
    lookupFile (Record r now payload env fs).2 (recordPath r sfx) =
      some ((lookupFile fs (recordPath r sfx)).getD ""
        ++ (if (lookupFile fs (recordPath r sfx)).getD "" = "" then writeRow r.Column else "")
        ++ writeRow (projectRecord r.Column m)) := by
  rw [Record_eval r now payload env fs sfx htz hmk hs,
    Append_ok_eval _ _ _ _ _ m hop hm]
  refine ⟨rfl, ?_⟩
  simp [flushBuf, hwr, lookup_appendFile_self, lookup_ensureFile_self,
    lookup_mkdirAll, str_append_assoc]

/-! ### Round trip of the CSV writer through the reader model -/

theorem csvRun_quo_esc (f : List Char) :
    ∀ (rest acc : List Char) (fields : List String),
    csvRun (escQ f ++ '"' :: rest) .quo acc fields
      = csvRun rest .qend (f.reverse ++ acc) fields := by
  induction f with
  | nil => intro rest acc fields; simp [escQ, csvRun]
  | cons c f ih =>
    intro rest acc fields
    by_cases hc : c = '"'
    · subst hc
      simp [escQ, csvRun, ih, List.append_assoc]
    · simp [escQ, hc, csvRun, ih, List.append_assoc]

theorem goNeedsQuotes_chars (f : List Char) (h : goNeedsQuotes f = false) :
    ∀ c ∈ f, c ≠ ',' ∧ c ≠ '"' ∧ c ≠ '\n' ∧ c ≠ '\r' := by
  intro c hc
  cases f with
  | nil => simp at hc
  | cons a rest =>
    rw [goNeedsQuotes] at h
    split_ifs at h with h1 h2
    have h2' : ∀ x ∈ a :: rest, ¬(x = ',' ∨ x = '"' ∨ x = '\r' ∨ x = '\n') := by
      intro x hx
      intro hor
      apply h2
      refine List.any_eq_true.mpr ⟨x, hx, ?_⟩
      rcases hor with h | h | h | h <;> simp [h]
    have := h2' c hc
    refine ⟨?_, ?_, ?_, ?_⟩ <;> intro he <;> exact this (by simp [he])

theorem csvRun_unq_chars (f : List Char)
    (hf : ∀ c ∈ f, c ≠ ',' ∧ c ≠ '"' ∧ c ≠ '\n' ∧ c ≠ '\r') :
    ∀ (rest acc : List Char) (fields : List String),
    csvRun (f ++ rest) .unq acc fields = csvRun rest .unq (f.reverse ++ acc) fields := by
  induction f with
  | nil => intro rest acc fields; simp
  | cons c f ih =>
    intro rest acc fields
    obtain ⟨h1, h2, h3, h4⟩ := hf c (by simp)
    have ih' := ih (fun x hx => hf x (by simp [hx]))
    simp [csvRun, h1, h2, h3, h4, ih', List.append_assoc]

theorem csvRun_field_comma (f : List Char) (rest : List Char) (fields : List String) :
    csvRun (encFieldChars f ++ ',' :: rest) .fstart [] fields
      = csvRun rest .fstart [] (String.mk f :: fields) := by
  by_cases hq : goNeedsQuotes f = true
  · have h1 : encFieldChars f ++ ',' :: rest = '"' :: (escQ f ++ '"' :: (',' :: rest)) := by
      simp [encFieldChars, hq, List.append_assoc]
    rw [h1]
    rw [show csvRun ('"' :: (escQ f ++ '"' :: (',' :: rest))) .fstart [] fields
        = csvRun (escQ f ++ '"' :: (',' :: rest)) .quo [] fields from by simp [csvRun]]
    rw [csvRun_quo_esc]
    simp [csvRun]
  · have hq' : goNeedsQuotes f = false := by simpa using hq
    have hchars := goNeedsQuotes_chars f hq'
    cases f with
    | nil => simp [encFieldChars, hq', csvRun, string_mk_nil]
    | cons a f' =>
      obtain ⟨h1, h2, h3, h4⟩ := hchars a (by simp)
      have hstep : csvRun ((a :: f') ++ ',' :: rest) .fstart [] fields
          = csvRun (f' ++ ',' :: rest) .unq [a] fields := by
        simp [csvRun, h1, h2, h3, h4]
      rw [show encFieldChars (a :: f') = a :: f' from by simp [encFieldChars, hq']]
      rw [hstep]
      rw [csvRun_unq_chars f' (fun x hx => hchars x (by simp [hx]))]
      simp [csvRun]

theorem csvRun_field_end (f : List Char) (fields : List String) :
    csvRun (encFieldChars f ++ ['\n']) .fstart [] fields
      = some ((String.mk f :: fields).reverse) := by
  by_cases hq : goNeedsQuotes f = true
  · have h1 : encFieldChars f ++ ['\n'] = '"' :: (escQ f ++ '"' :: ['\n']) := by
      simp [encFieldChars, hq, List.append_assoc]
    rw [h1]
    rw [show csvRun ('"' :: (escQ f ++ '"' :: ['\n'])) .fstart [] fields
        = csvRun (escQ f ++ '"' :: ['\n']) .quo [] fields from by simp [csvRun]]
    rw [csvRun_quo_esc]
    simp [csvRun]
  · have hq' : goNeedsQuotes f = false := by simpa using hq
    have hchars := goNeedsQuotes_chars f hq'
    cases f with
    | nil => simp [encFieldChars, hq', csvRun, string_mk_nil]
    | cons a f' =>
      obtain ⟨h1, h2, h3, h4⟩ := hchars a (by simp)
      have hstep : csvRun ((a :: f') ++ ['\n']) .fstart [] fields
          = csvRun (f' ++ ['\n']) .unq [a] fields := by
        simp [csvRun, h1, h2, h3, h4]
      rw [show encFieldChars (a :: f') = a :: f' from by simp [encFieldChars, hq']]
      rw [hstep]
      rw [csvRun_unq_chars f' (fun x hx => hchars x (by simp [hx]))]
      simp [csvRun]

theorem csvRun_row (fields : List String) (h : fields ≠ []) :
    ∀ acc : List String,
    csvRun (rowChars fields) .fstart [] acc = some (acc.reverse ++ fields) := by
  induction fields with
  | nil => cases h rfl
  | cons f rest ih =>
    intro acc
    cases rest with
    | nil =>
      rw [show rowChars [f] = encFieldChars f.toList ++ ['\n'] from by
        simp [rowChars, joinComma]]
      rw [csvRun_field_end]
      simp [string_mk_toList]
    | cons g r =>
      rw [show rowChars (f :: g :: r) = encFieldChars f.toList ++ ',' :: rowChars (g :: r) from by
        simp [rowChars, joinComma, List.append_assoc]]
      rw [csvRun_field_comma]
      rw [string_mk_toList]
      rw [ih (by simp) (f :: acc)]
      simp

theorem rowChars_ne_nil (fields : List String) : rowChars fields ≠ [] := by
  simp [rowChars]

theorem special_implies_quotes (f : String) (h : hasSpecialChar f = true) :
    goNeedsQuotes f.toList = true := by
  by_contra hq
  have hq' : goNeedsQuotes f.toList = false := by simpa using hq
  obtain ⟨c, hc, hcc⟩ := List.any_eq_true.mp h
  obtain ⟨h1, h2, h3, _⟩ := goNeedsQuotes_chars f.toList hq' c hc
  rcases (by simpa using hcc : (c = ',' ∨ c = '"') ∨ c = '\n') with (h | h) | h
  · exact h1 h
  · exact h2 h
  · exact h3 h

/-- File-level effects of one `Append` call, whatever the environment does:
pre-existing contents only ever gain a suffix, and paths other than the
target are untouched. -/
theorem Append_fs_effects (fn : String) (column : List String) (data : Payload)
    (env : GoEnv) (fs : FS) :
    (∀ p c, lookupFile fs p = some c →
        ∃ t, lookupFile (Append fn column data env fs).2 p = some (c ++ t)) ∧
    (∀ q, q ≠ fn → lookupFile (Append fn column data env fs).2 q = lookupFile fs q) := by
  by_cases hop : env.openOk = true
  · have hbuf : ∃ buf, (Append fn column data env fs).2
        = flushBuf env (ensureFile fs fn) fn buf := by
      cases hm : unmarshalToMap data with
      | error e => exact ⟨_, by rw [Append_err_eval fn column data env fs e hop hm]⟩
      | ok m => exact ⟨_, by rw [Append_ok_eval fn column data env fs m hop hm]⟩
    obtain ⟨buf, hbuf⟩ := hbuf
    rw [hbuf]
    by_cases hwr : env.writeOk = true
    · constructor
      · intro p c hc
        by_cases hp : p = fn
        · subst hp
          exact ⟨buf, by
            simp [flushBuf, hwr, lookup_appendFile_self, lookup_ensureFile_self, hc]⟩
        · exact ⟨"", by
            simp [flushBuf, hwr, lookup_appendFile_other _ _ _ _ hp,
              lookup_ensureFile_other _ _ _ hp, hc, String.append_empty]⟩
      · intro q hq
        simp [flushBuf, hwr, lookup_appendFile_other _ _ _ _ hq,
          lookup_ensureFile_other _ _ _ hq]
    · have hwr' : env.writeOk = false := by simpa using hwr
      constructor
      · intro p c hc
        by_cases hp : p = fn
        · subst hp
          exact ⟨"", by
            simp [flushBuf, hwr', lookup_ensureFile_self, hc, String.append_empty]⟩
        · exact ⟨"", by
            simp [flushBuf, hwr', lookup_ensureFile_other _ _ _ hp, hc,
              String.append_empty]⟩
      · intro q hq
        simp [flushBuf, hwr', lookup_ensureFile_other _ _ _ hq]
  · have hop' : env.openOk = false := by simpa using hop
    have hfs : (Append fn column data env fs).2 = fs := by simp [Append, hop']
    rw [hfs]
    exact ⟨fun p c hc => ⟨"", by rw [hc, String.append_empty]⟩, fun q _ => rfl⟩

/-! ### The claims -/

/-- C1: for every `Record` call that reaches its target file, the header row
(the configured column list, in order, CSV-encoded) is written before the
data row exactly when the file's size at open time is zero: the resulting
content is the old content, then the header exactly when the old content
was empty, then the data row.  In particular a non-empty file receives no
header row, whatever column list the call was configured with. -/
theorem header_written_iff_file_empty
    (r : RecordToCSVService) (now : GoDate) (payload : Payload) (env : GoEnv)
    (fs : FS) (m : List (String × Json)) (sfx : String)
    (htz : env.tzOk = true) (hmk : env.mkdirOk = true)
    (hop : env.openOk = true) (hwr : env.writeOk = true)
    (hm : unmarshalToMap payload = .ok m)
    (hs : periodSuffix r.RecordType now = some sfx) :
    (Record r now payload env fs).1 = .ok () ∧
    lookupFile (Record r now payload env fs).2 (recordPath r sfx) =
      some ((lookupFile fs (recordPath r sfx)).getD ""
        ++ (if (lookupFile fs (recordPath r sfx)).getD "" = ""
            then writeRow r.Column else "")
        ++ writeRow (projectRecord r.Column m)) :=
  record_ok_content r now payload env fs m sfx htz hmk hop hwr hm hs

/-- Witness for C1: the target file already holds `old_col\n9\n`, whose
header differs from the configured column list `["id"]`; the call appends
only the data row and leaves the old header alone. -/
theorem header_written_iff_file_empty_witness :
    (Record (NewRecordToCSV "files" "log" ["id"] "daily") ⟨2025, 8, 26⟩
        (Payload.json (Json.obj [("id", Json.num 7)])) ⟨true, true, true, true⟩
        ⟨[("files/log_2025_08_26.csv", "old_col\n9\n")], []⟩).1 = .ok () ∧
    lookupFile (Record (NewRecordToCSV "files" "log" ["id"] "daily") ⟨2025, 8, 26⟩
        (Payload.json (Json.obj [("id", Json.num 7)])) ⟨true, true, true, true⟩
        ⟨[("files/log_2025_08_26.csv", "old_col\n9\n")], []⟩).2
      "files/log_2025_08_26.csv" = some "old_col\n9\n7\n" := by
  have h := header_written_iff_file_empty (NewRecordToCSV "files" "log" ["id"] "daily")
    ⟨2025, 8, 26⟩ (Payload.json (Json.obj [("id", Json.num 7)]))
    ⟨true, true, true, true⟩ ⟨[("files/log_2025_08_26.csv", "old_col\n9\n")], []⟩
    [("id", Json.num 7)] "2025_08_26" rfl rfl rfl rfl rfl (by decide)
  exact ⟨h.1, h.2.trans (by decide)⟩

/-- C2: for every instant, the period suffix is the zero-padded four-digit
year, two-digit month and two-digit day joined by underscores for daily
granularity, year and month for monthly, and the year alone for yearly
(2025-08-26 yields `2025_08_26`, `2025_08`, `2025`), and the target path is
the directory joined with `{baseFilename}_{suffix}.csv`. -/
theorem period_suffix_formats :
    (∀ d : GoDate,
        periodSuffix "daily" d
          = some (padNat 4 d.year ++ "_" ++ padNat 2 d.month ++ "_" ++ padNat 2 d.day)
      ∧ periodSuffix "monthly" d = some (padNat 4 d.year ++ "_" ++ padNat 2 d.month)
      ∧ periodSuffix "yearly" d = some (padNat 4 d.year)) ∧
    periodSuffix "daily" ⟨2025, 8, 26⟩ = some "2025_08_26" ∧
    periodSuffix "monthly" ⟨2025, 8, 26⟩ = some "2025_08" ∧
    periodSuffix "yearly" ⟨2025, 8, 26⟩ = some "2025" ∧
    ∀ (r : RecordToCSVService) (sfx : String),
      recordPath r sfx = filepathJoin r.Dir (r.Filename ++ "_" ++ sfx ++ ".csv") := by
  refine ⟨?_, by decide, by decide, by decide, fun r sfx => rfl⟩
  intro d
  refine ⟨by rw [periodSuffix, if_pos rfl], ?_, ?_⟩
  · rw [periodSuffix, if_neg (by decide), if_pos rfl]
  · rw [periodSuffix, if_neg (by decide), if_neg (by decide), if_pos rfl]

/-- C4: a record type other than daily, monthly or yearly makes `Record`
fail with the "unsupported record type" error and leave the filesystem
exactly as it was: no directory created, no file created, opened or
written. -/
theorem invalid_granularity_fails_without_effects
    (r : RecordToCSVService) (now : GoDate) (payload : Payload) (env : GoEnv)
    (fs : FS) (htz : env.tzOk = true)
    (h1 : r.RecordType ≠ "daily") (h2 : r.RecordType ≠ "monthly")
    (h3 : r.RecordType ≠ "yearly") :
    Record r now payload env fs = (.error (unsupportedRecordTypeMsg r.RecordType), fs) := by
  have hs : periodSuffix r.RecordType now = none := by
    rw [periodSuffix, if_neg h1, if_neg h2, if_neg h3]
  simp [Record, htz, hs]

/-- Witness for C4: granularity `"weekly"` fails and leaves a non-trivial
filesystem untouched. -/
theorem invalid_granularity_fails_without_effects_witness :
    Record (NewRecordToCSV "files" "log" ["id"] "weekly") ⟨2025, 8, 26⟩
        (Payload.json Json.null) ⟨true, true, true, true⟩
        ⟨[("a.csv", "x")], ["files"]⟩
      = (.error (unsupportedRecordTypeMsg "weekly"), ⟨[("a.csv", "x")], ["files"]⟩) :=
  invalid_granularity_fails_without_effects (NewRecordToCSV "files" "log" ["id"] "weekly")
    ⟨2025, 8, 26⟩ (Payload.json Json.null) ⟨true, true, true, true⟩
    ⟨[("a.csv", "x")], ["files"]⟩ rfl (by decide) (by decide) (by decide)

/-- C5 (code-bug exhibit): an execution in which every step succeeds except
the OS write performed by the deferred `csvWriter.Flush()` — the row fits
`bufio`'s buffer, so nothing reaches the OS before the deferred flush, and
the flush error is discarded because `csvWriter.Error()` (line 127) runs
before the `defer csvWriter.Flush()` of line 86.  `Record` returns success
although the flush failed and the created file holds none of the bytes. -/
theorem record_swallows_deferred_flush_error :
    (⟨true, true, true, false⟩ : GoEnv).writeOk = false ∧
    (Record (NewRecordToCSV "files" "log" ["id"] "daily") ⟨2025, 8, 26⟩
        (Payload.json (Json.obj [("id", Json.num 1)])) ⟨true, true, true, false⟩
        ⟨[], []⟩).1 = .ok () ∧
    lookupFile (Record (NewRecordToCSV "files" "log" ["id"] "daily") ⟨2025, 8, 26⟩
        (Payload.json (Json.obj [("id", Json.num 1)])) ⟨true, true, true, false⟩
        ⟨[], []⟩).2 "files/log_2025_08_26.csv" = some "" :=
  ⟨rfl, rfl, by decide⟩

/-- C8 counterexample: the constructor offers no time-zone parameter, and
two service instances built with entirely different arguments still resolve
the very same zone name, `Asia/Jakarta` — the claim's "two Recorders
constructed with different time zone settings" cannot exist. -/
theorem timezone_not_per_instance_counterexample :
    recordZone (NewRecordToCSV "dirA" "fileA" ["a"] "daily") = "Asia/Jakarta" ∧
    recordZone (NewRecordToCSV "dirB" "fileB" ["b"] "monthly") = "Asia/Jakarta" ∧
    NewRecordToCSV "dirA" "fileA" ["a"] "daily"
      ≠ NewRecordToCSV "dirB" "fileB" ["b"] "monthly" :=
  ⟨rfl, rfl, by decide⟩

/-- C8 amended: the reference time zone is not a configuration field — the
name handed to `time.LoadLocation` is the hardcoded literal `Asia/Jakarta`,
identical for every instance the constructor can produce. -/
theorem timezone_hardcoded_jakarta :
    (∀ r : RecordToCSVService, recordZone r = recordZone (NewRecordToCSV "" "" [] "")) ∧
    (∀ (dir filename : String) (column : List String) (recordType : String),
        recordZone (NewRecordToCSV dir filename column recordType) = "Asia/Jakarta") :=
  ⟨fun _ => rfl, fun _ _ _ _ => rfl⟩

/-- C3: for every payload that decodes to a string-keyed mapping, the
appended data row has exactly one field per configured column, in column
order; each field is the rendered value of the matching key when it is
present and non-null, and the empty string otherwise; keys outside the
column list never influence the row; and rendering is the natural string
form — integral numbers as their decimal digits, strings verbatim, booleans
as `true`/`false`. -/
theorem row_projection_matches_columns
    (r : RecordToCSVService) (now : GoDate) (env : GoEnv) (fs : FS)
    (kvs : List (String × Json)) (sfx : String)
    (htz : env.tzOk = true) (hmk : env.mkdirOk = true)
    (hop : env.openOk = true) (hwr : env.writeOk = true)
    (hs : periodSuffix r.RecordType now = some sfx) :
    (Record r now (Payload.json (Json.obj kvs)) env fs).1 = .ok () ∧
    lookupFile (Record r now (Payload.json (Json.obj kvs)) env fs).2 (recordPath r sfx) =
      some ((lookupFile fs (recordPath r sfx)).getD ""
        ++ (if (lookupFile fs (recordPath r sfx)).getD "" = ""
            then writeRow r.Column else "")
        ++ writeRow (projectRecord r.Column kvs)) ∧
    projectRecord r.Column kvs = r.Column.map (fun col =>
        match jsonLookup kvs col with
        | some Json.null => ""
        | some v => renderValue v
        | none => "") ∧
    (projectRecord r.Column kvs).length = r.Column.length ∧
    (∀ (k : String) (v : Json), k ∉ r.Column →
        projectRecord r.Column ((k, v) :: kvs) = projectRecord r.Column kvs) ∧
    (∀ n : Int, renderValue (Json.num n) = toString n) ∧
    (∀ s : String, renderValue (Json.str s) = s) ∧
    (∀ b : Bool, renderValue (Json.bool b) = if b then "true" else "false") := by
  have h := record_ok_content r now (Payload.json (Json.obj kvs)) env fs kvs sfx
    htz hmk hop hwr rfl hs
  refine ⟨h.1, h.2, rfl, by simp [projectRecord], ?_, ?_, ?_, ?_⟩
  · intro k v hk
    unfold projectRecord
    apply List.map_congr_left
    intro col hcol
    have hne : k ≠ col := fun he => hk (he ▸ hcol)
    simp [jsonLookup, hne]
  · intro n; simp [renderValue]
  · intro s; simp [renderValue]
  · intro b; simp [renderValue]

/-- Witness for C3: columns `id,request,response`, payload
`{response: "200 OK", id: 123, extra: true}`; the `request` column renders
empty, the `extra` key disappears, and dropping `extra` leaves the row
unchanged. -/
theorem row_projection_matches_columns_witness :
    (Record (NewRecordToCSV "files" "log" ["id", "request", "response"] "daily")
        ⟨2025, 8, 26⟩
        (Payload.json (Json.obj [("response", Json.str "200 OK"), ("id", Json.num 123)]))
        ⟨true, true, true, true⟩ ⟨[], []⟩).1 = .ok () ∧
    lookupFile (Record (NewRecordToCSV "files" "log" ["id", "request", "response"] "daily")
        ⟨2025, 8, 26⟩
        (Payload.json (Json.obj [("response", Json.str "200 OK"), ("id", Json.num 123)]))
        ⟨true, true, true, true⟩ ⟨[], []⟩).2 "files/log_2025_08_26.csv"
      = some "id,request,response\n123,,200 OK\n" ∧
    projectRecord ["id", "request", "response"]
        (("extra", Json.bool true) :: [("response", Json.str "200 OK"), ("id", Json.num 123)])
      = projectRecord ["id", "request", "response"]
        [("response", Json.str "200 OK"), ("id", Json.num 123)] := by
  have h := row_projection_matches_columns
    (NewRecordToCSV "files" "log" ["id", "request", "response"] "daily") ⟨2025, 8, 26⟩
    ⟨true, true, true, true⟩ ⟨[], []⟩
    [("response", Json.str "200 OK"), ("id", Json.num 123)] "2025_08_26"
    rfl rfl rfl rfl (by decide)
  exact ⟨h.1, h.2.1.trans (by decide),
    h.2.2.2.2.1 "extra" (Json.bool true) (by decide)⟩

/-- C6: every field containing the comma delimiter, a double quote or a
newline is escaped per CSV rules — the field is quoted and its embedded
quote characters doubled — and the produced line parses back, through a
standard CSV reader, to exactly the original fields. -/
theorem csv_special_fields_roundtrip (fields : List String)
    (h : ∃ f ∈ fields, hasSpecialChar f = true) :
    (∀ f ∈ fields, hasSpecialChar f = true →
        goNeedsQuotes f.toList = true ∧
        encodeField f = String.mk ('"' :: (escQ f.toList ++ ['"']))) ∧
    parseRecord (writeRow fields) = some fields := by
  obtain ⟨f0, hf0, _⟩ := h
  have hne : fields ≠ [] := fun he => by subst he; simp at hf0
  constructor
  · intro f _ hsp
    have hq := special_implies_quotes f hsp
    exact ⟨hq, by simp only [encodeField, encFieldChars]; rw [if_pos hq]⟩
  · rw [parseRecord]
    rw [show (writeRow fields).toList = rowChars fields from rfl]
    rw [if_neg (rowChars_ne_nil fields)]
    simpa using csvRun_row fields hne []

/-- Witness for C6: a record mixing a comma field, a quote field, a newline
field, a plain field and an empty field round-trips, and the quote field is
escaped by doubling. -/
theorem csv_special_fields_roundtrip_witness :
    parseRecord (writeRow ["a,b", "c\"d", "e\nf", "plain", ""])
      = some ["a,b", "c\"d", "e\nf", "plain", ""] ∧
    encodeField "c\"d" = "\"c\"\"d\"" := by
  have h := csv_special_fields_roundtrip ["a,b", "c\"d", "e\nf", "plain", ""]
    ⟨"a,b", by decide, by decide⟩
  exact ⟨h.2, (h.1 "c\"d" (by decide) (by decide)).2.trans (by decide)⟩

/-- C7: `Record` is append-only — any pre-existing file content is a prefix
of that file's content afterwards (existing bytes are never deleted,
truncated or modified), and every path other than the current period's
target file is left exactly as it was; when the record type is invalid the
whole filesystem is untouched. -/
theorem record_is_append_only (r : RecordToCSVService) (now : GoDate)
    (payload : Payload) (env : GoEnv) (fs : FS) :
    (∀ p c, lookupFile fs p = some c →
        ∃ t, lookupFile (Record r now payload env fs).2 p = some (c ++ t)) ∧
    (∀ sfx, periodSuffix r.RecordType now = some sfx →
        ∀ q, q ≠ recordPath r sfx →
          lookupFile (Record r now payload env fs).2 q = lookupFile fs q) ∧
    (periodSuffix r.RecordType now = none →
        (Record r now payload env fs).2 = fs) := by
  by_cases htz : env.tzOk = true
  · cases hsfx : periodSuffix r.RecordType now with
    | none =>
      have hfs : (Record r now payload env fs).2 = fs := by simp [Record, htz, hsfx]
      rw [hfs]
      refine ⟨fun p c hc => ⟨"", by rw [hc, String.append_empty]⟩, ?_, fun _ => rfl⟩
      intro sfx hs
      exact nomatch hs
    | some sfx =>
      by_cases hmk : env.mkdirOk = true
      · have hr2 : (Record r now payload env fs).2
            = (Append (recordPath r sfx) r.Column payload env (mkdirAll fs r.Dir)).2 := by
          rw [Record_eval r now payload env fs sfx htz hmk hsfx]
          rcases hA : Append (recordPath r sfx) r.Column payload env (mkdirAll fs r.Dir)
            with ⟨res, fs2⟩
          cases res <;> rfl
        have hfx := Append_fs_effects (recordPath r sfx) r.Column payload env
          (mkdirAll fs r.Dir)
        refine ⟨?_, ?_, ?_⟩
        · intro p c hc
          obtain ⟨t, ht⟩ := hfx.1 p c (by rw [lookup_mkdirAll]; exact hc)
          exact ⟨t, by rw [hr2]; exact ht⟩
        · intro sfx2 hs q hq
          have he := Option.some.inj hs
          subst he
          rw [hr2, hfx.2 q hq]
          exact lookup_mkdirAll fs r.Dir q
        · intro hnone; exact nomatch hnone
      · have hmk' : env.mkdirOk = false := by simpa using hmk
        have hfs : (Record r now payload env fs).2 = fs := by
          simp [Record, htz, hsfx, hmk']
        rw [hfs]
        exact ⟨fun p c hc => ⟨"", by rw [hc, String.append_empty]⟩,
          fun _ _ q _ => rfl, fun _ => rfl⟩
  · have htz' : env.tzOk = false := by simpa using htz
    have hfs : (Record r now payload env fs).2 = fs := by simp [Record, htz']
    rw [hfs]
    exact ⟨fun p c hc => ⟨"", by rw [hc, String.append_empty]⟩,
      fun _ _ q _ => rfl, fun _ => rfl⟩

/-- Witness for C7: a call that appends to its own target leaves an
unrelated file byte-for-byte intact. -/
theorem record_is_append_only_witness :
    lookupFile (Record (NewRecordToCSV "files" "log" ["id"] "daily") ⟨2025, 8, 26⟩
        (Payload.json Json.null) ⟨true, true, true, true⟩
        ⟨[("keep.csv", "data")], []⟩).2 "keep.csv" = some "data" := by
  have h := (record_is_append_only (NewRecordToCSV "files" "log" ["id"] "daily")
      ⟨2025, 8, 26⟩ (Payload.json Json.null) ⟨true, true, true, true⟩
      ⟨[("keep.csv", "data")], []⟩).2.1 "2025_08_26" (by decide) "keep.csv" (by decide)
  exact h.trans (by decide)

/-- C9: a nil payload marshals to JSON `null`, which unmarshals into an
empty map without error, so `Record` succeeds and appends a data row of
exactly `len(columns)` empty fields. -/
theorem nil_payload_appends_empty_fields
    (r : RecordToCSVService) (now : GoDate) (env : GoEnv) (fs : FS) (sfx : String)
    (htz : env.tzOk = true) (hmk : env.mkdirOk = true)
    (hop : env.openOk = true) (hwr : env.writeOk = true)
    (hs : periodSuffix r.RecordType now = some sfx) :
    unmarshalToMap (Payload.json Json.null) = .ok [] ∧
    (Record r now (Payload.json Json.null) env fs).1 = .ok () ∧
    lookupFile (Record r now (Payload.json Json.null) env fs).2 (recordPath r sfx) =
      some ((lookupFile fs (recordPath r sfx)).getD ""
        ++ (if (lookupFile fs (recordPath r sfx)).getD "" = ""
            then writeRow r.Column else "")
        ++ writeRow (List.replicate r.Column.length "")) := by
  have h := record_ok_content r now (Payload.json Json.null) env fs [] sfx
    htz hmk hop hwr rfl hs
  have hrep : projectRecord r.Column ([] : List (String × Json))
      = List.replicate r.Column.length "" := by
    simp [projectRecord, jsonLookup]
  exact ⟨rfl, h.1, by rw [← hrep]; exact h.2⟩

/-- Witness for C9: two columns, nil payload — the file gains the header and
the row `,`. -/
theorem nil_payload_appends_empty_fields_witness :
    (Record (NewRecordToCSV "files" "log" ["id", "x"] "daily") ⟨2025, 8, 26⟩
        (Payload.json Json.null) ⟨true, true, true, true⟩ ⟨[], []⟩).1 = .ok () ∧
    lookupFile (Record (NewRecordToCSV "files" "log" ["id", "x"] "daily") ⟨2025, 8, 26⟩
        (Payload.json Json.null) ⟨true, true, true, true⟩ ⟨[], []⟩).2
      "files/log_2025_08_26.csv" = some "id,x\n,\n" := by
  have h := nil_payload_appends_empty_fields
    (NewRecordToCSV "files" "log" ["id", "x"] "daily") ⟨2025, 8, 26⟩
    ⟨true, true, true, true⟩ ⟨[], []⟩ "2025_08_26" rfl rfl rfl rfl (by decide)
  exact ⟨h.2.1, h.2.2.trans (by decide)⟩

/-- C10: when the payload fails to decode into a string-keyed mapping on the
first record of a period, `Record` reports the error, yet the target file
has already been created and — the header having been written to the CSV
writer before serialization, and the writer being flushed on exit even on
the error path — is left holding exactly the header row and no data row. -/
theorem serialization_failure_leaves_header_only
    (r : RecordToCSVService) (now : GoDate) (payload : Payload) (env : GoEnv)
    (fs : FS) (sfx e : String)
    (htz : env.tzOk = true) (hmk : env.mkdirOk = true)
    (hop : env.openOk = true) (hwr : env.writeOk = true)
    (hs : periodSuffix r.RecordType now = some sfx)
    (habs : lookupFile fs (recordPath r sfx) = none)
    (hm : unmarshalToMap payload = .error e) :
    (Record r now payload env fs).1
      = .error ("failed to append record to \"" ++ recordPath r sfx ++ "\": " ++ e) ∧
    lookupFile (Record r now payload env fs).2 (recordPath r sfx)
      = some (writeRow r.Column) := by
  rw [Record_eval r now payload env fs sfx htz hmk hs,
    Append_err_eval _ _ _ _ _ e hop hm]
  refine ⟨rfl, ?_⟩
  simp [flushBuf, hwr, lookup_appendFile_self, lookup_ensureFile_self,
    lookup_mkdirAll, habs, String.empty_append]

/-- Witness for C10: a payload that marshals to the JSON number `5` cannot
unmarshal into a map; the fresh target file ends up holding exactly the
header `id,x`. -/
theorem serialization_failure_leaves_header_only_witness :
    (Record (NewRecordToCSV "files" "log" ["id", "x"] "daily") ⟨2025, 8, 26⟩
        (Payload.json (Json.num 5)) ⟨true, true, true, true⟩ ⟨[], []⟩).1
      = .error ("failed to append record to \"files/log_2025_08_26.csv\": "
          ++ "failed to unmarshal JSON to map") ∧
    lookupFile (Record (NewRecordToCSV "files" "log" ["id", "x"] "daily") ⟨2025, 8, 26⟩
        (Payload.json (Json.num 5)) ⟨true, true, true, true⟩ ⟨[], []⟩).2
      "files/log_2025_08_26.csv" = some "id,x\n" := by
  have h := serialization_failure_leaves_header_only
    (NewRecordToCSV "files" "log" ["id", "x"] "daily") ⟨2025, 8, 26⟩
    (Payload.json (Json.num 5)) ⟨true, true, true, true⟩ ⟨[], []⟩
    "2025_08_26" "failed to unmarshal JSON to map" rfl rfl rfl rfl (by decide) rfl rfl
  exact ⟨h.1, h.2.trans (by decide)⟩

end Recordtocsv
